import Mathlib

/-!
Verification development for the LC3IDE editor shell (src/main.py).

The embedding below mirrors the Python source. The `MainWindow` widget keeps
two index-keyed dictionaries (`tab_modified`, `tab_file_paths`) next to the
Qt tab widget's own list of pages; dictionaries are modelled as functions
`Nat → Option α` (a missing key is `none`), the tab widget's pages as a
`List TabEntry` in index order. GUI effects that come from outside the
program (file dialogs, file reads and writes, process spawning) are supplied
by an `Env` record; the user's answer to the unsaved-changes prompt is a
`CloseReply` argument.
-/

set_option linter.unusedVariables false

/-- One page of the QTabWidget: the editor widget's identity, the index the
per-tab close button captured at construction time (`idx=index` default
argument of the lambda in `add_new_tab`), the tab title and the buffer
content. -/
structure TabEntry where
  id : Nat
  closeTarget : Nat
  title : String
  content : String
deriving Repr, DecidableEq

/-- External effects: results of the open/save-as file dialogs (the empty
string models a cancelled dialog, which is falsy in Python), success of
`open(...).write`, success of `subprocess.Popen`, and the outcome of reading
a file (`none` models a raised exception). -/
structure Env where
  openDialogPath : String
  saveAsPath : String
  writeOk : Bool
  spawnOk : Bool
  readFile : String → Option String

/-- The `MainWindow` state: the tab widget's pages, the two index-keyed
dictionaries `tab_modified` and `tab_file_paths`, the current index
(an `Int`, since Qt reports -1 when nothing is current), and a counter
supplying fresh editor identities. -/
structure IDEState where
  tabs : List TabEntry
  modified : Nat → Option Bool
  filePaths : Nat → Option (Option String)
  current : Int
  nextId : Nat

/-- Python dictionary assignment `m[k] = v`. -/
def dictInsert {α : Type} (m : Nat → Option α) (k : Nat) (v : α) : Nat → Option α :=
  fun i => if i = k then some v else m i

/-- Python `self.tab_modified.get(index, False)`. -/
def getModified (s : IDEState) (k : Nat) : Bool :=
  (s.modified k).getD false

/-- Python `self.tab_file_paths.get(i)` (default `None`). -/
def pathAt (s : IDEState) (k : Nat) : Option String :=
  (s.filePaths k).getD none

/-- Python truthiness of `self.tab_file_paths.get(index)`: `None` and the
empty string are falsy. -/
def pathTruthy (s : IDEState) (k : Nat) : Option String :=
  match pathAt s k with
  | some p => if p = "" then none else some p
  | none => none

/-- Model of `os.path.basename`: the part of the path after the last
separator. -/
def basename (p : String) : String :=
  String.mk ((p.toList.reverse.takeWhile (fun c => c ≠ '/' ∧ c ≠ '\\')).reverse)

/-- Python slice `file_path[:-3]`: all characters but the last three. -/
def pyDropLast3 (p : String) : String :=
  String.mk (p.toList.take (p.toList.length - 3))

/-- The output path `assemble_code` opens after running the external tool:
`file_path[:-3] + "bin"`. -/
def assembleOutputPath (p : String) : String :=
  pyDropLast3 p ++ "bin"

/-- Modelled from the spec: the output path described by the spec's words,
"the tool's expected output path (same base name, binary-file extension)" —
the final extension of `p` replaced with `.bin`. The repository's code does
not contain such a function; this definition exists only to compare the
spec's description with `assembleOutputPath`. -/
def specReplaceFinalExtWithBin (p : String) : String :=
  let cs := p.toList
  if cs.contains '.' then
    String.mk (((cs.reverse.dropWhile (fun c => c ≠ '.')).drop 1).reverse) ++ ".bin"
  else p ++ ".bin"

/-- `MainWindow.add_new_tab(title, file_path, content)`: build an editor
(the placeholder text and `setPlainText` happen before `textChanged` is
connected, so loading content does not mark the tab modified), append it as
a new tab — `addTab` returns the new index, the old page count — record
`tab_modified[index] = False`, `tab_file_paths[index] = file_path`, give the
close button its captured index, and make the new editor current. -/
def add_new_tab (s : IDEState) (title : String) (file_path : Option String)
    (content : String) : IDEState :=
  let index := s.tabs.length
  { tabs := s.tabs ++ [{ id := s.nextId, closeTarget := index,
                         title := title, content := content }]
    modified := dictInsert s.modified index false
    filePaths := dictInsert s.filePaths index file_path
    current := (index : Int)
    nextId := s.nextId + 1 }

/-- `MainWindow.mark_tab_modified(index)`: when `index >= 0`, set
`tab_modified[index] = True` (the button update touches no model state). -/
def mark_tab_modified (s : IDEState) (index : Int) : IDEState :=
  if 0 ≤ index then
    { s with modified := dictInsert s.modified index.toNat true }
  else s

/-- `MainWindow.mark_tab_saved(index)`: when `index >= 0`, set
`tab_modified[index] = False`. -/
def mark_tab_saved (s : IDEState) (index : Int) : IDEState :=
  if 0 ≤ index then
    { s with modified := dictInsert s.modified index.toNat false }
  else s

/-- `QTabWidget.setTabText(index, name)` on the modelled page list. -/
def setTabTitle : List TabEntry → Nat → String → List TabEntry
  | [], _, _ => []
  | e :: rest, 0, t => { e with title := t } :: rest
  | e :: rest, i + 1, t => e :: setTabTitle rest i t

/-- `MainWindow.save_file_as()`: bail out when no tab is current; show the
save dialog (empty result is falsy); when a current editor exists, write the
buffer — on success rename the tab to the file's base name, record the path
and mark the tab saved; a raised write error leaves the state unchanged. -/
def save_file_as (s : IDEState) (env : Env) : IDEState :=
  if s.current < 0 then s
  else if env.saveAsPath = "" then s
  else if s.current.toNat < s.tabs.length then
    if env.writeOk then
      mark_tab_saved
        { s with tabs := setTabTitle s.tabs s.current.toNat (basename env.saveAsPath)
                 filePaths := dictInsert s.filePaths s.current.toNat (some env.saveAsPath) }
        s.current
    else s
  else s

/-- `MainWindow.save_file()`: bail out when no tab is current; with no
truthy stored path delegate to `save_file_as`; otherwise write the current
editor's buffer to the stored path and mark the tab saved on success. -/
def save_file (s : IDEState) (env : Env) : IDEState :=
  if s.current < 0 then s
  else
    match pathTruthy s s.current.toNat with
    | none => save_file_as s env
    | some _ =>
      if s.current.toNat < s.tabs.length then
        if env.writeOk then mark_tab_saved s s.current else s
      else s

/-- The user's answer to the three-way unsaved-changes prompt. -/
inductive CloseReply
  | save
  | discard
  | cancel
deriving DecidableEq, Repr

/-- The map transformation the spec describes for a close at index `k`:
entry `k` removed, every entry at a greater index shifted down by one. -/
def removeAndShift {α : Type} (m : Nat → Option α) (k : Nat) : Nat → Option α :=
  fun i => if i < k then m i else m (i + 1)

/-- `MainWindow.close_tab(index)`: only acts when more than one tab is open.
If the tab is marked modified, show the save/discard/cancel prompt: `Save`
temporarily makes the tab current and runs `save_file`, `Cancel` returns
without closing. Then `removeTab(index)` and rebuild both dictionaries with
the loop `old_index = i if i < index else i + 1` over the new tab count.
The returned `Bool` records whether the prompt was shown. Qt's adjustment
of the current index on removal is modelled after `QTabWidget` behaviour;
no claim depends on it. -/
def close_tab (s : IDEState) (index : Nat) (reply : CloseReply) (env : Env) :
    IDEState × Bool :=
  if 1 < s.tabs.length then
    let promptShown := getModified s index
    let afterPrompt : Option IDEState :=
      if getModified s index = true then
        match reply with
        | .save =>
          let oldIndex := s.current
          let s1 := save_file { s with current := (index : Int) } env
          some { s1 with current := oldIndex }
        | .discard => some s
        | .cancel => none
      else some s
    match afterPrompt with
    | none => (s, promptShown)
    | some s2 =>
      let newTabs := s2.tabs.eraseIdx index
      let n := newTabs.length
      let newModified : Nat → Option Bool :=
        fun i => if i < n then s2.modified (if i < index then i else i + 1) else none
      let newPaths : Nat → Option (Option String) :=
        fun i => if i < n then s2.filePaths (if i < index then i else i + 1) else none
      let newCurrent : Int :=
        if (index : Int) < s2.current then s2.current - 1
        else if s2.current = (index : Int) then min s2.current ((n : Int) - 1)
        else s2.current
      ({ tabs := newTabs, modified := newModified, filePaths := newPaths,
         current := newCurrent, nextId := s2.nextId }, promptShown)
  else (s, false)

/-- How `open_file` was invoked: from a clicked signal (the `checked=False`
argument equals Python `False`, so the open dialog runs) or with an explicit
path string. -/
inductive OpenArg
  | clicked
  | path (p : String)

/-- The `for i in range(self.tabs.count())` scan of `open_file`: the first
index whose stored path equals the requested one. -/
def scanTabs (s : IDEState) (fp : String) : Option Nat :=
  (List.range s.tabs.length).find? (fun i => pathAt s i == some fp)

/-- The path `open_file` acts on: the `file_path == False` comparison is
true exactly when the method was invoked from a clicked signal, in which
case the open dialog supplies the path. -/
def resolveOpenArg (arg : OpenArg) (env : Env) : String :=
  match arg with
  | .clicked => env.openDialogPath
  | .path p => p

/-- `MainWindow.open_file(file_path)`: resolve the argument (dialog when
invoked from a click), do nothing on a falsy path; if some open tab already
stores this path, just make the first such tab current; otherwise read the
file and add a new tab titled with the base name — a read error shows a
dialog and leaves the state unchanged. -/
def open_file (s : IDEState) (arg : OpenArg) (env : Env) : IDEState :=
  if resolveOpenArg arg env = "" then s
  else
    match scanTabs s (resolveOpenArg arg env) with
    | some i => { s with current := (i : Int) }
    | none =>
      match env.readFile (resolveOpenArg arg env) with
      | some content =>
        add_new_tab s (basename (resolveOpenArg arg env))
          (some (resolveOpenArg arg env)) content
      | none => s

/-- `MainWindow.assemble_code()`: bail out when no tab is current; with no
truthy stored path delegate to `save_file_as` and return without running the
tool; otherwise pipe the commands to the spawned shell, wait, and open
`file_path[:-3] + "bin"`. The returned `Bool` records whether the external
tool was invoked. -/
def assemble_code (s : IDEState) (env : Env) : IDEState × Bool :=
  if s.current < 0 then (s, false)
  else
    match pathTruthy s s.current.toNat with
    | none => (save_file_as s env, false)
    | some p =>
      if s.current.toNat < s.tabs.length then
        if env.spawnOk then
          (open_file s (.path (assembleOutputPath p)) env, true)
        else (s, false)
      else (s, false)

/-- `QTabWidget.indexOf(editor)` driving the `textChanged` lambda: the index
of the tab holding the given editor, -1 when absent. -/
def indexOfId (s : IDEState) (tabId : Nat) : Int :=
  match s.tabs.findIdx? (fun t => t.id == tabId) with
  | some i => (i : Int)
  | none => -1

/-- The operations the window reacts to, each parametrised by the external
effects it consumes. -/
inductive Op
  | addTab (title : String) (fp : Option String) (content : String)
  | textChanged (tabId : Nat)
  | saveOp (env : Env)
  | saveAsOp (env : Env)
  | closeOp (index : Nat) (reply : CloseReply) (env : Env)
  | openOp (arg : OpenArg) (env : Env)
  | assembleOp (env : Env)

/-- One event-loop step of the window. -/
def step (s : IDEState) : Op → IDEState
  | .addTab t fp c => add_new_tab s t fp c
  | .textChanged tabId => mark_tab_modified s (indexOfId s tabId)
  | .saveOp env => save_file s env
  | .saveAsOp env => save_file_as s env
  | .closeOp k r env => (close_tab s k r env).1
  | .openOp arg env => open_file s arg env
  | .assembleOp env => (assemble_code s env).1

/-- Python `len(str(n))` for a natural number: its decimal digit count. -/
def numDigits : Nat → Nat
  | n =>
    if h : n < 10 then 1
    else numDigits (n / 10) + 1
termination_by n => n
decreasing_by exact Nat.div_lt_self (by omega) (by omega)

/-- `CodeEditor.line_number_area_width`: `3 + horizontalAdvance('9') *
len(str(max(1, blockCount)))`, with the digit glyph width and the block
count as parameters. -/
def line_number_area_width (charWidth blockCount : Nat) : Nat :=
  3 + charWidth * numDigits (max 1 blockCount)

/-- A text block as the paint loop sees it: the height of its bounding
rectangle and its visibility. -/
structure PaintBlock where
  height : Nat
  visible : Bool
deriving Repr, DecidableEq

/-- The `while` loop of `line_number_area_paint_event`: walk the remaining
blocks carrying the running `top` coordinate while `top <= rect.bottom()`;
draw the 1-based number of every visible block with `bottom >= rect.top()`.
Returns the drawn line numbers and the number of loop iterations. -/
def paintLoop : List PaintBlock → Nat → Int → Int → Int → List Nat × Nat
  | [], _, _, _, _ => ([], 0)
  | b :: rest, blockNumber, top, rTop, rBottom =>
    if top ≤ rBottom then
      ((if b.visible = true ∧ rTop ≤ top + (b.height : Int)
        then [blockNumber + 1] else []) ++
          (paintLoop rest (blockNumber + 1) (top + (b.height : Int)) rTop rBottom).1,
        (paintLoop rest (blockNumber + 1) (top + (b.height : Int)) rTop rBottom).2 + 1)
    else ([], 0)

/-- `CodeEditor.line_number_area_paint_event`: start at the first visible
block (blocks above it are never visited) with its translated top
coordinate, and run the walk against the repaint rectangle. -/
def line_number_area_paint_event (blocks : List PaintBlock) (firstVisible : Nat)
    (top0 rTop rBottom : Int) : List Nat × Nat :=
  paintLoop (blocks.drop firstVisible) firstVisible top0 rTop rBottom

/-- Top coordinate of the j-th block of a walk starting at `top0`. -/
def topAt (blocks : List PaintBlock) (top0 : Int) (j : Nat) : Int :=
  top0 + ((blocks.take j).map (fun b => (b.height : Int))).sum

/-- Number of blocks of the walk whose top coordinate is at most
`rBottom`. -/
def countTopsLe : List PaintBlock → Int → Int → Nat
  | [], _, _ => 0
  | b :: rest, top, rBottom =>
    (if top ≤ rBottom then 1 else 0) + countTopsLe rest (top + (b.height : Int)) rBottom

/-- Number of blocks whose bounding box `[top, top + height]` intersects the
repaint rectangle's vertical span `[rTop, rBottom]`. -/
def countIntersecting : List PaintBlock → Int → Int → Int → Nat
  | [], _, _, _ => 0
  | b :: rest, top, rTop, rBottom =>
    (if top ≤ rBottom ∧ rTop ≤ top + (b.height : Int) then 1 else 0) +
      countIntersecting rest (top + (b.height : Int)) rTop rBottom

/-- One entry of the `extra_selections` list built by
`highlight_current_line`: a full-width flag and the cursor's line. -/
structure ExtraSelection where
  fullWidth : Bool
  cursorLine : Nat
deriving Repr, DecidableEq

/-- `CodeEditor.highlight_current_line`: start from an empty list; unless
the widget is read-only, append one full-width selection at the text
cursor (selection cleared, so it covers exactly the cursor's line). -/
def highlight_current_line (readOnly : Bool) (cursorLine : Nat) : List ExtraSelection :=
  if readOnly = true then []
  else [{ fullWidth := true, cursorLine := cursorLine }]

/-! ### Helper lemmas -/

theorem length_setTabTitle (l : List TabEntry) (i : Nat) (t : String) :
    (setTabTitle l i t).length = l.length := by
  induction l generalizing i with
  | nil => rfl
  | cons e rest ih =>
    cases i with
    | zero => rfl
    | succ j => simp only [setTabTitle, List.length_cons, ih]

theorem mark_tab_saved_tabs (s : IDEState) (i : Int) :
    (mark_tab_saved s i).tabs = s.tabs := by
  unfold mark_tab_saved; split <;> rfl

theorem mark_tab_modified_tabs (s : IDEState) (i : Int) :
    (mark_tab_modified s i).tabs = s.tabs := by
  unfold mark_tab_modified; split <;> rfl

theorem save_file_as_tabs_length (s : IDEState) (env : Env) :
    (save_file_as s env).tabs.length = s.tabs.length := by
  unfold save_file_as
  split
  · rfl
  · split
    · rfl
    · split
      · split
        · rw [mark_tab_saved_tabs]
          exact length_setTabTitle _ _ _
        · rfl
      · rfl

theorem save_file_tabs_length (s : IDEState) (env : Env) :
    (save_file s env).tabs.length = s.tabs.length := by
  unfold save_file
  split
  · rfl
  · split
    · exact save_file_as_tabs_length _ _
    · split
      · split
        · rw [mark_tab_saved_tabs]
        · rfl
      · rfl

/-! ### Concrete states used by the witnesses -/

def env0 : Env :=
  { openDialogPath := "", saveAsPath := "", writeOk := true, spawnOk := true,
    readFile := fun _ => none }

def sampleState : IDEState :=
  { tabs := [{ id := 0, closeTarget := 0, title := "Untitled-1", content := "" },
             { id := 1, closeTarget := 1, title := "a.asm", content := "ADD R1,R2,R3" }]
    modified := fun i => if i = 0 then some false else if i = 1 then some true else none
    filePaths := fun i =>
      if i = 0 then some none else if i = 1 then some (some "a.asm") else none
    current := 1
    nextId := 2 }

def singleTabState : IDEState :=
  { tabs := [{ id := 0, closeTarget := 0, title := "Untitled-1", content := "" }]
    modified := fun i => if i = 0 then some false else none
    filePaths := fun i => if i = 0 then some none else none
    current := 0
    nextId := 1 }

/-! ### C5 -/

/-- C5: on every recomputation, the extra-selection list holds exactly one
full-width selection at the cursor's line when the widget is editable, and
is empty when the widget is read-only. -/
theorem highlight_exactly_one_line (cursorLine : Nat) :
    highlight_current_line false cursorLine =
      [{ fullWidth := true, cursorLine := cursorLine }] ∧
    highlight_current_line true cursorLine = [] ∧
    ∀ ro : Bool, (highlight_current_line ro cursorLine).length =
      (if ro = true then 0 else 1) := by
  refine ⟨rfl, rfl, fun ro => ?_⟩
  cases ro <;> rfl

/-! ### C8 -/

/-- C8: closing a modified tab while more than one tab is open shows the
three-way prompt (second component `true`), and answering Cancel returns the
state completely unchanged. -/
theorem close_modified_cancel_noop (s : IDEState) (k : Nat) (env : Env)
    (hcount : 1 < s.tabs.length) (hmod : getModified s k = true) :
    close_tab s k CloseReply.cancel env = (s, true) := by
  unfold close_tab
  rw [if_pos hcount, if_pos hmod, hmod]

theorem close_modified_cancel_noop_witness :
    1 < sampleState.tabs.length ∧ getModified sampleState 1 = true ∧
    close_tab sampleState 1 CloseReply.cancel env0 = (sampleState, true) :=
  ⟨by decide, by decide,
    close_modified_cancel_noop sampleState 1 env0 (by decide) (by decide)⟩

/-! ### C2 -/

/-- C2: with exactly one tab open, the close operation changes nothing and
shows no prompt; consequently a tab count of at least one is preserved by
every close. -/
theorem close_tab_singleton_noop (s : IDEState) (k : Nat) (reply : CloseReply)
    (env : Env) :
    (s.tabs.length = 1 → close_tab s k reply env = (s, false)) ∧
    (1 ≤ s.tabs.length → 1 ≤ (close_tab s k reply env).1.tabs.length) := by
  constructor
  · intro h1
    unfold close_tab
    rw [if_neg (by omega)]
  · intro h1
    by_cases hgt : 1 < s.tabs.length
    · unfold close_tab
      rw [if_pos hgt]
      by_cases hm : getModified s k = true
      · rw [if_pos hm]
        cases reply with
        | save =>
          simp only [List.length_eraseIdx, save_file_tabs_length]
          split <;> omega
        | discard =>
          simp only [List.length_eraseIdx]
          split <;> omega
        | cancel => simpa using h1
      · rw [if_neg hm]
        simp only [List.length_eraseIdx]
        split <;> omega
    · unfold close_tab
      rw [if_neg hgt]
      exact h1

theorem close_tab_singleton_noop_witness :
    singleTabState.tabs.length = 1 ∧
    close_tab singleTabState 0 CloseReply.discard env0 = (singleTabState, false) ∧
    1 ≤ (close_tab singleTabState 0 CloseReply.discard env0).1.tabs.length :=
  ⟨by decide,
    (close_tab_singleton_noop singleTabState 0 CloseReply.discard env0).1 (by decide),
    (close_tab_singleton_noop singleTabState 0 CloseReply.discard env0).2 (by decide)⟩

/-! ### C1 -/

theorem close_tab_no_save (s : IDEState) (k : Nat) (reply : CloseReply) (env : Env)
    (hcount : 1 < s.tabs.length)
    (hclean : getModified s k = false ∨ reply = CloseReply.discard) :
    (close_tab s k reply env).1.modified =
      (fun i => if i < (s.tabs.eraseIdx k).length then
        s.modified (if i < k then i else i + 1) else none) ∧
    (close_tab s k reply env).1.filePaths =
      (fun i => if i < (s.tabs.eraseIdx k).length then
        s.filePaths (if i < k then i else i + 1) else none) ∧
    (close_tab s k reply env).1.tabs = s.tabs.eraseIdx k := by
  unfold close_tab
  rcases hclean with hc | hr
  · rw [if_pos hcount, if_neg (by simp [hc])]
    exact ⟨rfl, rfl, rfl⟩
  · subst hr
    rw [if_pos hcount]
    by_cases hm : getModified s k = true
    · rw [if_pos hm]
      exact ⟨rfl, rfl, rfl⟩
    · rw [if_neg hm]
      exact ⟨rfl, rfl, rfl⟩

theorem rebuild_eq_removeAndShift {α : Type} (m : Nat → Option α) (k n len : Nat)
    (hk : k < len) (hn : n = len - 1)
    (hdom : ∀ i, len ≤ i → m i = none) :
    (fun i => if i < n then m (if i < k then i else i + 1) else none) =
      removeAndShift m k := by
  funext i
  unfold removeAndShift
  by_cases hi : i < n
  · rw [if_pos hi]
    by_cases hik : i < k
    · rw [if_pos hik, if_pos hik]
    · rw [if_neg hik, if_neg hik]
  · rw [if_neg hi, if_neg (by omega)]
    exact (hdom (i + 1) (by omega)).symm

/-- C1: closing a clean tab, or a modified tab with discard confirmed, while
more than one tab is open leaves both per-index dictionaries equal to the
pre-close dictionaries with entry `k` removed and every later entry shifted
down by one, contiguously. -/
theorem close_tab_reindex_exact (s : IDEState) (k : Nat) (reply : CloseReply)
    (env : Env) (hcount : 1 < s.tabs.length) (hk : k < s.tabs.length)
    (hclean : getModified s k = false ∨ reply = CloseReply.discard)
    (hmdom : ∀ i, s.tabs.length ≤ i → s.modified i = none)
    (hpdom : ∀ i, s.tabs.length ≤ i → s.filePaths i = none) :
    (close_tab s k reply env).1.modified = removeAndShift s.modified k ∧
    (close_tab s k reply env).1.filePaths = removeAndShift s.filePaths k := by
  obtain ⟨h1, h2, -⟩ := close_tab_no_save s k reply env hcount hclean
  have hn : (s.tabs.eraseIdx k).length = s.tabs.length - 1 := by
    rw [List.length_eraseIdx, if_pos hk]
  rw [h1, h2]
  exact ⟨rebuild_eq_removeAndShift s.modified k _ s.tabs.length hk hn hmdom,
         rebuild_eq_removeAndShift s.filePaths k _ s.tabs.length hk hn hpdom⟩

theorem close_tab_reindex_exact_witness :
    getModified sampleState 0 = false ∧
    ((close_tab sampleState 0 CloseReply.discard env0).1.modified =
        removeAndShift sampleState.modified 0 ∧
      (close_tab sampleState 0 CloseReply.discard env0).1.filePaths =
        removeAndShift sampleState.filePaths 0) :=
  ⟨by decide,
    close_tab_reindex_exact sampleState 0 CloseReply.discard env0 (by decide) (by decide)
      (Or.inl (by decide))
      (fun i hi => by
        have hi2 : 2 ≤ i := hi
        show (if i = 0 then some false else if i = 1 then some true else none) = none
        rw [if_neg (by omega), if_neg (by omega)])
      (fun i hi => by
        have hi2 : 2 ≤ i := hi
        show (if i = 0 then some none
              else if i = 1 then some (some "a.asm") else none) = none
        rw [if_neg (by omega), if_neg (by omega)])⟩

/-! ### C10 -/

theorem setTabTitle_getElem?_ne (l : List TabEntry) (i : Nat) (t : String)
    (j : Nat) (hji : j ≠ i) :
    (setTabTitle l i t)[j]? = l[j]? := by
  induction l generalizing i j with
  | nil => rfl
  | cons e rest ih =>
    cases i with
    | zero =>
      cases j with
      | zero => exact absurd rfl hji
      | succ j' => simp [setTabTitle]
    | succ i' =>
      cases j with
      | zero => simp [setTabTitle]
      | succ j' =>
        show (e :: setTabTitle rest i' t)[j' + 1]? = (e :: rest)[j' + 1]?
        rw [List.getElem?_cons_succ, List.getElem?_cons_succ]
        exact ih i' j' (by omega)

theorem save_file_as_tabs_getElem?_ne (s : IDEState) (env : Env) (j : Nat)
    (hj : j ≠ s.current.toNat) :
    (save_file_as s env).tabs[j]? = s.tabs[j]? := by
  unfold save_file_as
  split
  · rfl
  · split
    · rfl
    · split
      · split
        · rw [mark_tab_saved_tabs]
          exact setTabTitle_getElem?_ne s.tabs s.current.toNat _ j hj
        · rfl
      · rfl

theorem save_file_tabs_getElem?_ne (s : IDEState) (env : Env) (j : Nat)
    (hj : j ≠ s.current.toNat) :
    (save_file s env).tabs[j]? = s.tabs[j]? := by
  unfold save_file
  split
  · rfl
  · split
    · exact save_file_as_tabs_getElem?_ne s env j hj
    · split
      · split
        · rw [mark_tab_saved_tabs]
        · rfl
      · rfl

theorem close_tab_tabs_after_removal (s : IDEState) (k : Nat) (reply : CloseReply)
    (env : Env) (hcount : 1 < s.tabs.length)
    (hrem : getModified s k = false ∨ ¬ reply = CloseReply.cancel)
    (j : Nat) (hj : k < j) :
    (close_tab s k reply env).1.tabs[j - 1]? = s.tabs[j]? := by
  by_cases hm : getModified s k = true
  · cases reply with
    | save =>
      unfold close_tab
      rw [if_pos hcount, if_pos hm]
      show ((save_file { s with current := (k : Int) } env).tabs.eraseIdx k)[j - 1]? =
        s.tabs[j]?
      rw [List.getElem?_eraseIdx, if_neg (show ¬ j - 1 < k by omega),
          show j - 1 + 1 = j by omega]
      exact save_file_tabs_getElem?_ne _ env j
        (by show j ≠ ((k : Int)).toNat; rw [Int.toNat_natCast]; omega)
    | discard =>
      obtain ⟨-, -, htabs⟩ :=
        close_tab_no_save s k CloseReply.discard env hcount (Or.inr rfl)
      rw [htabs, List.getElem?_eraseIdx, if_neg (show ¬ j - 1 < k by omega),
          show j - 1 + 1 = j by omega]
    | cancel =>
      rcases hrem with h | h
      · rw [h] at hm
        exact absurd hm (by simp)
      · exact absurd rfl h
  · have hc : getModified s k = false := by
      cases h : getModified s k
      · rfl
      · exact absurd h hm
    obtain ⟨-, -, htabs⟩ := close_tab_no_save s k reply env hcount (Or.inl hc)
    rw [htabs, List.getElem?_eraseIdx, if_neg (show ¬ j - 1 < k by omega),
        show j - 1 + 1 = j by omega]

/-- C10: the per-tab close button fires `close_tab` with the index captured
at button construction — the tab's index at creation time — and a removal
of an earlier tab never updates it, whether the removed tab was clean or
its prompt was answered with Discard or with Save: each surviving later tab
keeps its entry (and its captured index) unchanged, so its button now
targets an index one greater than the tab's current position. A close
answered with Cancel removes nothing and is not a removal. -/
theorem close_button_captured_index (s : IDEState) (k : Nat) (reply : CloseReply)
    (env : Env) (hcount : 1 < s.tabs.length) (hk : k < s.tabs.length)
    (hrem : getModified s k = false ∨ ¬ reply = CloseReply.cancel) :
    (∀ title fp c, ((add_new_tab s title fp c).tabs)[s.tabs.length]? =
      some { id := s.nextId, closeTarget := s.tabs.length,
             title := title, content := c }) ∧
    (∀ j, k < j → (close_tab s k reply env).1.tabs[j - 1]? = s.tabs[j]?) ∧
    (∀ j b, k < j → s.tabs[j]? = some b → b.closeTarget = j →
      (close_tab s k reply env).1.tabs[j - 1]? = some b ∧
        b.closeTarget = (j - 1) + 1) := by
  have hshift : ∀ j, k < j →
      (close_tab s k reply env).1.tabs[j - 1]? = s.tabs[j]? :=
    fun j hj => close_tab_tabs_after_removal s k reply env hcount hrem j hj
  refine ⟨?_, hshift, ?_⟩
  · intro title fp c
    exact List.getElem?_concat_length s.tabs _
  · intro j b hj hb hct
    refine ⟨by rw [hshift j hj, hb], by omega⟩

/-- Two tabs with the first one modified: its close prompt is answered with
Save, which with this environment falls through to a cancelled save-as
dialog before the removal proceeds. -/
def sampleStateMod : IDEState :=
  { tabs := [{ id := 0, closeTarget := 0, title := "Untitled-1", content := "X" },
             { id := 1, closeTarget := 1, title := "a.asm", content := "ADD" }]
    modified := fun i => if i = 0 then some true else if i = 1 then some false else none
    filePaths := fun i =>
      if i = 0 then some none else if i = 1 then some (some "a.asm") else none
    current := 0
    nextId := 2 }

theorem close_button_captured_index_witness :
    1 < sampleStateMod.tabs.length ∧ getModified sampleStateMod 0 = true ∧
    ((close_tab sampleStateMod 0 CloseReply.save env0).1.tabs[0]? =
        some { id := 1, closeTarget := 1, title := "a.asm", content := "ADD" } ∧
      ({ id := 1, closeTarget := 1, title := "a.asm",
         content := "ADD" } : TabEntry).closeTarget = 0 + 1) :=
  ⟨by decide, by decide,
    (close_button_captured_index sampleStateMod 0 CloseReply.save env0 (by decide)
      (by decide) (Or.inr (by decide))).2.2 1 _ (by decide) (by decide) (by decide)⟩

/-! ### C6 -/

/-- C6: opening a non-empty path already stored by some open tab makes the
first such tab current and changes nothing else (in particular no tab is
created and no tab state is touched); a new tab can only appear when no
open tab stores the path. -/
theorem open_file_dedup (s : IDEState) (env : Env) (p : String) (hp : p ≠ "") :
    ((∃ i, i < s.tabs.length ∧ pathAt s i = some p) →
      ∃ j, j < s.tabs.length ∧ pathAt s j = some p ∧
        open_file s (OpenArg.path p) env = { s with current := (j : Int) }) ∧
    ((open_file s (OpenArg.path p) env).tabs ≠ s.tabs →
      ∀ j, j < s.tabs.length → pathAt s j ≠ some p) := by
  constructor
  · rintro ⟨i, hi, hpi⟩
    have hsome : (scanTabs s p).isSome := by
      rw [scanTabs, List.find?_isSome]
      exact ⟨i, List.mem_range.mpr hi, by simp [hpi]⟩
    obtain ⟨j, hj⟩ := Option.isSome_iff_exists.mp hsome
    refine ⟨j, List.mem_range.mp (List.mem_of_find?_eq_some hj), ?_, ?_⟩
    · have := List.find?_some hj
      simpa using this
    · simp only [open_file, resolveOpenArg]
      rw [if_neg hp, hj]
  · intro hne j hj hpj
    have hsome : (scanTabs s p).isSome := by
      rw [scanTabs, List.find?_isSome]
      exact ⟨j, List.mem_range.mpr hj, by simp [hpj]⟩
    obtain ⟨i, hi⟩ := Option.isSome_iff_exists.mp hsome
    exact absurd (by simp only [open_file, resolveOpenArg]; rw [if_neg hp, hi]) hne

theorem open_file_dedup_witness :
    (1 < sampleState.tabs.length ∧ pathAt sampleState 1 = some "a.asm") ∧
    (∃ j, j < sampleState.tabs.length ∧ pathAt sampleState j = some "a.asm" ∧
      open_file sampleState (OpenArg.path "a.asm") env0 =
        { sampleState with current := (j : Int) }) :=
  ⟨⟨by decide, by decide⟩,
    (open_file_dedup sampleState env0 "a.asm" (by decide)).1 ⟨1, by decide, by decide⟩⟩

/-! ### C7 -/

/-- Concrete state holding one tab whose stored path has a one-character
extension. -/
def stateAS : IDEState :=
  { tabs := [{ id := 0, closeTarget := 0, title := "a.s", content := "ADD" }]
    modified := fun i => if i = 0 then some false else none
    filePaths := fun i => if i = 0 then some (some "a.s") else none
    current := 0
    nextId := 1 }

/-- Environment where reading the extension-replaced output path would
succeed but reading the code's actual output path fails. -/
def envAS : Env :=
  { openDialogPath := "", saveAsPath := "", writeOk := true, spawnOk := true,
    readFile := fun q => if q = "a.bin" then some "BINS" else none }

/-- C7 counterexample: the assemble action computes its output path as
`file_path[:-3] + "bin"`, which is not "the final extension replaced with
'.bin'": on the stored path "a.s" the code opens "bin" while the claimed
path is "a.bin", so the run adds no tab even though opening "a.bin" would
have. -/
theorem assemble_output_not_extension_replacement :
    assembleOutputPath "a.s" = "bin" ∧
    specReplaceFinalExtWithBin "a.s" = "a.bin" ∧
    assembleOutputPath "a.s" ≠ specReplaceFinalExtWithBin "a.s" ∧
    pathTruthy stateAS 0 = some "a.s" ∧
    (assemble_code stateAS envAS).1.tabs.length = 1 ∧
    (open_file stateAS (OpenArg.path (specReplaceFinalExtWithBin "a.s")) envAS).tabs.length = 2 := by
  refine ⟨?_, ?_, ?_, ?_, ?_, ?_⟩ <;> decide

/-- C7 (amended): with no truthy stored path the assemble action delegates
to save-as and never invokes the assembler; with a stored path `p` it runs
the external tool and then attempts to open `p` with its last three
characters dropped and "bin" appended (which equals replacing the final
extension with ".bin" exactly when that extension is three characters
long). -/
theorem assemble_code_behavior (s : IDEState) (env : Env) :
    (0 ≤ s.current → pathTruthy s s.current.toNat = none →
      assemble_code s env = (save_file_as s env, false)) ∧
    (∀ p, 0 ≤ s.current → pathTruthy s s.current.toNat = some p →
      s.current.toNat < s.tabs.length → env.spawnOk = true →
      assemble_code s env =
        (open_file s (OpenArg.path (assembleOutputPath p)) env, true)) := by
  constructor
  · intro hcur hpt
    unfold assemble_code
    rw [if_neg (by omega)]
    simp only [hpt]
  · intro p hcur hpt hlt hspawn
    unfold assemble_code
    rw [if_neg (by omega)]
    simp only [hpt]
    rw [if_pos hlt, if_pos hspawn]

theorem assemble_code_behavior_witness :
    pathTruthy stateAS 0 = some "a.s" ∧
    assemble_code stateAS envAS =
      (open_file stateAS (OpenArg.path (assembleOutputPath "a.s")) envAS, true) :=
  ⟨by decide,
    (assemble_code_behavior stateAS envAS).2 "a.s" (by decide) (by decide)
      (by decide) rfl⟩

/-! ### C4 -/

theorem numDigits_eq_log (n : Nat) : numDigits n = Nat.log 10 n + 1 := by
  induction n using Nat.strong_induction_on with
  | _ n ih =>
    rw [numDigits]
    split
    next h =>
      have hz : Nat.log 10 n = 0 := Nat.log_eq_zero_iff.mpr (Or.inl h)
      omega
    next h =>
      rw [ih (n / 10) (Nat.div_lt_self (by omega) (by omega))]
      have hlog := Nat.log_div_base 10 n
      have hpos : 0 < Nat.log 10 n := Nat.log_pos (by omega) (by omega)
      omega

theorem log10_succ_increase_iff (n : Nat) (hn : 1 ≤ n) :
    Nat.log 10 n < Nat.log 10 (n + 1) ↔ ∃ j, 0 < j ∧ n + 1 = 10 ^ j := by
  constructor
  · intro h
    refine ⟨Nat.log 10 (n + 1), by omega, ?_⟩
    have h1 : 10 ^ Nat.log 10 (n + 1) ≤ n + 1 := Nat.pow_log_le_self 10 (by omega)
    have h2 : n < 10 ^ Nat.log 10 (n + 1) :=
      (Nat.lt_pow_iff_log_lt (by omega) (by omega)).mpr h
    omega
  · rintro ⟨j, hj, hpow⟩
    have h1 : Nat.log 10 (n + 1) = j := by
      rw [hpow, Nat.log_pow (by omega)]
    have h2 : Nat.log 10 n < j :=
      (Nat.lt_pow_iff_log_lt (by omega) (by omega)).mp (by omega)
    omega

/-- C4: the gutter width is the fixed 3-pixel margin plus the digit-glyph
width times the decimal digit count of the block count (an empty buffer
counts as one line), and as the line count grows by one it strictly
increases exactly at power-of-ten boundaries and is unchanged otherwise
(for a positive digit-glyph width). -/
theorem gutter_width_power_of_ten (charWidth n : Nat) (hcw : 0 < charWidth)
    (hn : 1 ≤ n) :
    line_number_area_width charWidth 0 = line_number_area_width charWidth 1 ∧
    line_number_area_width charWidth n = 3 + charWidth * numDigits n ∧
    (line_number_area_width charWidth n < line_number_area_width charWidth (n + 1) ↔
      ∃ j, 0 < j ∧ n + 1 = 10 ^ j) ∧
    (line_number_area_width charWidth (n + 1) = line_number_area_width charWidth n ↔
      ¬∃ j, 0 < j ∧ n + 1 = 10 ^ j) := by
  have hmax : max 1 n = n := by omega
  have hmax1 : max 1 (n + 1) = n + 1 := by omega
  have hkey : (line_number_area_width charWidth n <
      line_number_area_width charWidth (n + 1)) ↔
      Nat.log 10 n < Nat.log 10 (n + 1) := by
    unfold line_number_area_width
    rw [hmax, hmax1, numDigits_eq_log, numDigits_eq_log]
    constructor
    · intro h
      have h2 : charWidth * (Nat.log 10 n + 1) <
          charWidth * (Nat.log 10 (n + 1) + 1) := by omega
      have h3 := (Nat.mul_lt_mul_left hcw).mp h2
      omega
    · intro h
      have h2 : charWidth * (Nat.log 10 n + 1) <
          charWidth * (Nat.log 10 (n + 1) + 1) :=
        (Nat.mul_lt_mul_left hcw).mpr (by omega)
      omega
  have hmono : line_number_area_width charWidth n ≤
      line_number_area_width charWidth (n + 1) := by
    unfold line_number_area_width
    rw [hmax, hmax1, numDigits_eq_log, numDigits_eq_log]
    have hlm : Nat.log 10 n ≤ Nat.log 10 (n + 1) :=
      Nat.log_mono_right (by omega)
    have h2 : charWidth * (Nat.log 10 n + 1) ≤
        charWidth * (Nat.log 10 (n + 1) + 1) :=
      Nat.mul_le_mul (Nat.le_refl charWidth) (by omega)
    omega
  refine ⟨rfl, ?_, ?_, ?_⟩
  · unfold line_number_area_width
    rw [hmax]
  · rw [hkey]
    exact log10_succ_increase_iff n hn
  · constructor
    · intro heq
      rw [← log10_succ_increase_iff n hn, ← hkey]
      omega
    · intro hne
      have hnlt : ¬ (line_number_area_width charWidth n <
          line_number_area_width charWidth (n + 1)) := by
        rw [hkey, log10_succ_increase_iff n hn]
        exact hne
      omega

theorem gutter_width_power_of_ten_witness :
    0 < 7 ∧ 1 ≤ 9 ∧
    (line_number_area_width 7 9 < line_number_area_width 7 10 ↔
      ∃ j, 0 < j ∧ 9 + 1 = 10 ^ j) :=
  ⟨by decide, by decide, (gutter_width_power_of_ten 7 9 (by decide) (by decide)).2.2.1⟩

/-! ### C9 -/

theorem topAt_zero (blocks : List PaintBlock) (top0 : Int) :
    topAt blocks top0 0 = top0 := by
  simp [topAt]

theorem topAt_cons_succ (b : PaintBlock) (rest : List PaintBlock) (top0 : Int)
    (j : Nat) :
    topAt (b :: rest) top0 (j + 1) = topAt rest (top0 + (b.height : Int)) j := by
  simp only [topAt, List.take_succ_cons, List.map_cons, List.sum_cons]
  ring

theorem paintLoop_drawn (bs : List PaintBlock) (n : Nat) (top rTop rBottom : Int) :
    ∀ m ∈ (paintLoop bs n top rTop rBottom).1,
      ∃ j b, bs[j]? = some b ∧ m = n + j + 1 ∧ b.visible = true ∧
        topAt bs top j ≤ rBottom ∧ rTop ≤ topAt bs top j + (b.height : Int) := by
  induction bs generalizing n top with
  | nil => intro m hm; simp [paintLoop] at hm
  | cons b rest ih =>
    intro m hm
    rw [paintLoop] at hm
    by_cases htop : top ≤ rBottom
    · rw [if_pos htop] at hm
      simp only [List.mem_append] at hm
      rcases hm with hm | hm
      · by_cases hd : b.visible = true ∧ rTop ≤ top + (b.height : Int)
        · rw [if_pos hd] at hm
          simp only [List.mem_singleton] at hm
          subst hm
          exact ⟨0, b, by simp, by omega, hd.1,
            by rw [topAt_zero]; exact htop, by rw [topAt_zero]; exact hd.2⟩
        · rw [if_neg hd] at hm
          simp at hm
      · obtain ⟨j, b', hb', hm', hvis, h1, h2⟩ := ih (n + 1) (top + (b.height : Int)) m hm
        refine ⟨j + 1, b', by simpa using hb', by omega, hvis, ?_, ?_⟩
        · rw [topAt_cons_succ]; exact h1
        · rw [topAt_cons_succ]; exact h2
    · rw [if_neg htop] at hm
      simp at hm

theorem paintLoop_iterations_le_countTopsLe (bs : List PaintBlock) (n : Nat)
    (top rTop rBottom : Int) :
    (paintLoop bs n top rTop rBottom).2 ≤ countTopsLe bs top rBottom := by
  induction bs generalizing n top with
  | nil => simp [paintLoop, countTopsLe]
  | cons b rest ih =>
    rw [paintLoop, countTopsLe]
    by_cases htop : top ≤ rBottom
    · rw [if_pos htop, if_pos htop]
      have h := ih (n + 1) (top + (b.height : Int))
      dsimp only
      omega
    · rw [if_neg htop, if_neg htop]
      simp

theorem countTopsLe_le_length (bs : List PaintBlock) (top rBottom : Int) :
    countTopsLe bs top rBottom ≤ bs.length := by
  induction bs generalizing top with
  | nil => simp [countTopsLe]
  | cons b rest ih =>
    rw [countTopsLe]
    have h := ih (top + (b.height : Int))
    simp only [List.length_cons]
    split <;> omega

/-- Four visible blocks of height 10: with a repaint span of [25, 35] only
the third and fourth blocks intersect it, yet the walk from the first
visible block iterates all four. -/
def cexBlocks : List PaintBlock :=
  [{ height := 10, visible := true }, { height := 10, visible := true },
   { height := 10, visible := true }, { height := 10, visible := true }]

/-- C9 counterexample: the paint walk's iteration count is not bounded by
the number of lines intersecting the repaint rectangle — blocks between the
first visible line and the rectangle's top are iterated without
intersecting it: here the loop runs 4 iterations while only 2 lines
intersect. -/
theorem paint_loop_visits_more_than_intersecting :
    (line_number_area_paint_event cexBlocks 0 0 25 35).1 = [3, 4] ∧
    (line_number_area_paint_event cexBlocks 0 0 25 35).2 = 4 ∧
    countIntersecting cexBlocks 0 25 35 = 2 ∧
    ¬ ((line_number_area_paint_event cexBlocks 0 0 25 35).2 ≤
        countIntersecting cexBlocks 0 25 35) := by
  refine ⟨?_, ?_, ?_, ?_⟩ <;> decide

/-- C9 (amended): the paint walk terminates; it draws numbers only for
visible blocks whose bounding box intersects the repaint rectangle; it
stops as soon as a block's top passes the rectangle's bottom; its iteration
count is bounded by the number of lines at or after the first visible line
whose top does not pass the rectangle's bottom — hence also by the number
of lines from the first visible one — but not by the number of lines
intersecting the rectangle. -/
theorem paint_event_bounds (blocks : List PaintBlock) (firstVisible : Nat)
    (top0 rTop rBottom : Int) :
    (∀ m ∈ (line_number_area_paint_event blocks firstVisible top0 rTop rBottom).1,
      ∃ j b, (blocks.drop firstVisible)[j]? = some b ∧ m = firstVisible + j + 1 ∧
        b.visible = true ∧ topAt (blocks.drop firstVisible) top0 j ≤ rBottom ∧
        rTop ≤ topAt (blocks.drop firstVisible) top0 j + (b.height : Int)) ∧
    (line_number_area_paint_event blocks firstVisible top0 rTop rBottom).2 ≤
      countTopsLe (blocks.drop firstVisible) top0 rBottom ∧
    (line_number_area_paint_event blocks firstVisible top0 rTop rBottom).2 ≤
      blocks.length - firstVisible ∧
    (rBottom < top0 →
      line_number_area_paint_event blocks firstVisible top0 rTop rBottom = ([], 0)) := by
  refine ⟨paintLoop_drawn _ _ _ _ _, paintLoop_iterations_le_countTopsLe _ _ _ _ _, ?_, ?_⟩
  · calc (line_number_area_paint_event blocks firstVisible top0 rTop rBottom).2 ≤
        countTopsLe (blocks.drop firstVisible) top0 rBottom :=
          paintLoop_iterations_le_countTopsLe _ _ _ _ _
      _ ≤ (blocks.drop firstVisible).length := countTopsLe_le_length _ _ _
      _ = blocks.length - firstVisible := List.length_drop _ _
  · intro hlt
    unfold line_number_area_paint_event
    cases blocks.drop firstVisible with
    | nil => rfl
    | cons b rest => rw [paintLoop, if_neg (by omega)]

theorem paint_event_bounds_witness :
    (∃ j b, (cexBlocks.drop 0)[j]? = some b ∧ 3 = 0 + j + 1 ∧
      b.visible = true ∧ topAt (cexBlocks.drop 0) 0 j ≤ 35 ∧
      (25 : Int) ≤ topAt (cexBlocks.drop 0) 0 j + (b.height : Int)) ∧
    (line_number_area_paint_event cexBlocks 0 0 25 35).2 ≤
      countTopsLe (cexBlocks.drop 0) 0 35 ∧
    ((35 : Int) < 50 ∧
      line_number_area_paint_event cexBlocks 0 50 25 35 = ([], 0)) :=
  ⟨(paint_event_bounds cexBlocks 0 0 25 35).1 3 (by decide),
   (paint_event_bounds cexBlocks 0 0 25 35).2.1,
   by decide, (paint_event_bounds cexBlocks 0 50 25 35).2.2.2 (by decide)⟩

/-! ### C3 -/

theorem close_tab_cancel_eq (s : IDEState) (k : Nat) (env : Env)
    (hcount : 1 < s.tabs.length) (hm : getModified s k = true) :
    close_tab s k CloseReply.cancel env = (s, getModified s k) := by
  unfold close_tab
  rw [if_pos hcount, if_pos hm]

theorem close_tab_shifted_entry (s : IDEState) (k : Nat) (reply : CloseReply)
    (env : Env) (j : Nat) (hcount : 1 < s.tabs.length) (hj : j < s.tabs.length)
    (hjk : j ≠ k)
    (hclean : getModified s k = false ∨ reply = CloseReply.discard) :
    (close_tab s k reply env).1.tabs[if j < k then j else j - 1]? = s.tabs[j]? ∧
    (close_tab s k reply env).1.modified (if j < k then j else j - 1) =
      s.modified j := by
  obtain ⟨h1, -, htabs⟩ := close_tab_no_save s k reply env hcount hclean
  constructor
  · rw [htabs, List.getElem?_eraseIdx]
    by_cases hlt : j < k
    · rw [if_pos hlt, if_pos hlt]
    · rw [if_neg hlt, if_neg (show ¬ j - 1 < k by omega)]
      congr 1
      omega
  · have hlen := List.length_eraseIdx s.tabs k
    have hn2 : (if j < k then j else j - 1) < (s.tabs.eraseIdx k).length := by
      rw [hlen]
      by_cases hkl : k < s.tabs.length
      · rw [if_pos hkl]
        split <;> omega
      · rw [if_neg hkl]
        split <;> omega
    rw [h1]
    dsimp only
    rw [if_pos hn2]
    by_cases hlt : j < k
    · simp only [if_pos hlt]
    · simp only [if_neg hlt]
      rw [if_neg (by omega)]
      congr 1
      omega

theorem open_file_preserves_modified (s : IDEState) (arg : OpenArg) (env : Env)
    (i : Nat) (hi : i < s.tabs.length) :
    (open_file s arg env).modified i = s.modified i := by
  unfold open_file
  split
  · rfl
  · split
    · rfl
    · split
      · simp only [add_new_tab, dictInsert]
        rw [if_neg (by omega)]
      · rfl

theorem assemble_preserves_modified (s : IDEState) (env : Env) (i : Nat)
    (hi : i < s.tabs.length) (hcur : 0 ≤ s.current)
    (hpt : ¬ pathTruthy s s.current.toNat = none) :
    (assemble_code s env).1.modified i = s.modified i := by
  obtain ⟨p, hp⟩ : ∃ p, pathTruthy s s.current.toNat = some p := by
    cases h : pathTruthy s s.current.toNat
    · exact absurd h hpt
    · exact ⟨_, rfl⟩
  unfold assemble_code
  rw [if_neg (by omega)]
  simp only [hp]
  split
  · split
    · exact open_file_preserves_modified s _ env i hi
    · rfl
  · rfl

theorem textChanged_preserves_true (s : IDEState) (tabId i : Nat)
    (hmod : s.modified i = some true) :
    (step s (Op.textChanged tabId)).modified i = some true := by
  show (mark_tab_modified s (indexOfId s tabId)).modified i = some true
  unfold mark_tab_modified
  split
  · dsimp only
    simp only [dictInsert]
    split
    · rfl
    · exact hmod
  · exact hmod

theorem close_preserves_true_flag (s : IDEState) (k : Nat) (reply : CloseReply)
    (env : Env) (j : Nat) (hj : j < s.tabs.length) (hjk : j ≠ k)
    (hns : getModified s k = false ∨ ¬ reply = CloseReply.save)
    (hmod : s.modified j = some true) :
    ∃ j', (close_tab s k reply env).1.tabs[j']? = s.tabs[j]? ∧
      (close_tab s k reply env).1.modified j' = some true := by
  by_cases hcount : 1 < s.tabs.length
  · by_cases hm : getModified s k = true
    · cases reply with
      | save =>
        rcases hns with h | h
        · rw [h] at hm
          exact absurd hm (by simp)
        · exact absurd rfl h
      | discard =>
        obtain ⟨ht, hmn⟩ := close_tab_shifted_entry s k CloseReply.discard env j
          hcount hj hjk (Or.inr rfl)
        exact ⟨_, ht, by rw [hmn]; exact hmod⟩
      | cancel =>
        rw [close_tab_cancel_eq s k env hcount hm]
        exact ⟨j, rfl, hmod⟩
    · have hc : getModified s k = false := by
        cases h : getModified s k
        · rfl
        · exact absurd h hm
      obtain ⟨ht, hmn⟩ := close_tab_shifted_entry s k reply env j hcount hj hjk
        (Or.inl hc)
      exact ⟨_, ht, by rw [hmn]; exact hmod⟩
  · unfold close_tab
    rw [if_neg hcount]
    exact ⟨j, rfl, hmod⟩

/-- C3: a tab's modified flag is `false` right after the tab is created by
open/load and right after a successful save or save-as; the first
content-change notification sets it to `true`; and no operation other than
one that performs an explicit save (save, save-as, close answered with
Save, assemble on a path-less tab) ever takes a tab's flag from `true` to
`false` — tab creation, content changes, opening files, assembling a tab
that has a stored path, and closing another tab with discard or cancel all
preserve a `true` flag of a surviving tab, which keeps its list entry. -/
theorem modified_flag_lifecycle (s : IDEState) :
    (∀ title fp content,
      (add_new_tab s title fp content).modified s.tabs.length = some false) ∧
    (∀ env p, 0 ≤ s.current → pathTruthy s s.current.toNat = some p →
      s.current.toNat < s.tabs.length → env.writeOk = true →
      (save_file s env).modified s.current.toNat = some false) ∧
    (∀ env, 0 ≤ s.current → ¬ env.saveAsPath = "" →
      s.current.toNat < s.tabs.length → env.writeOk = true →
      (save_file_as s env).modified s.current.toNat = some false) ∧
    (∀ tabId i, s.tabs.findIdx? (fun t => t.id == tabId) = some i →
      (step s (Op.textChanged tabId)).modified i = some true) ∧
    (∀ title fp content i, i < s.tabs.length →
      (add_new_tab s title fp content).modified i = s.modified i) ∧
    (∀ tabId i, s.modified i = some true →
      (step s (Op.textChanged tabId)).modified i = some true) ∧
    (∀ arg env i, i < s.tabs.length →
      (open_file s arg env).modified i = s.modified i) ∧
    (∀ env i, i < s.tabs.length → 0 ≤ s.current →
      ¬ pathTruthy s s.current.toNat = none →
      (assemble_code s env).1.modified i = s.modified i) ∧
    (∀ k reply env j, j < s.tabs.length → j ≠ k →
      (getModified s k = false ∨ ¬ reply = CloseReply.save) →
      s.modified j = some true →
      ∃ j', (close_tab s k reply env).1.tabs[j']? = s.tabs[j]? ∧
        (close_tab s k reply env).1.modified j' = some true) := by
  refine ⟨?_, ?_, ?_, ?_, ?_, ?_, ?_, ?_, ?_⟩
  · intro title fp content
    simp [add_new_tab, dictInsert]
  · intro env p hcur hp hlt hwk
    unfold save_file
    rw [if_neg (by omega)]
    simp only [hp]
    rw [if_pos hlt, if_pos hwk]
    unfold mark_tab_saved
    rw [if_pos hcur]
    simp [dictInsert]
  · intro env hcur hsp hlt hwk
    unfold save_file_as
    rw [if_neg (by omega), if_neg hsp, if_pos hlt, if_pos hwk]
    unfold mark_tab_saved
    rw [if_pos hcur]
    simp [dictInsert]
  · intro tabId i hfind
    have hidx : indexOfId s tabId = (i : Int) := by
      unfold indexOfId
      rw [hfind]
    show (mark_tab_modified s (indexOfId s tabId)).modified i = some true
    rw [hidx]
    unfold mark_tab_modified
    rw [if_pos (by omega)]
    simp [dictInsert, Int.toNat_natCast]
  · intro title fp content i hi
    simp only [add_new_tab, dictInsert]
    rw [if_neg (by omega)]
  · exact fun tabId i h => textChanged_preserves_true s tabId i h
  · exact fun arg env i hi => open_file_preserves_modified s arg env i hi
  · exact fun env i hi hcur hpt => assemble_preserves_modified s env i hi hcur hpt
  · exact fun k reply env j hj hjk hns hmod =>
      close_preserves_true_flag s k reply env j hj hjk hns hmod

theorem modified_flag_lifecycle_witness :
    ((add_new_tab sampleState "Untitled" none "").modified 2 = some false) ∧
    (sampleState.tabs.findIdx? (fun t => t.id == 1) = some 1 ∧
      (step sampleState (Op.textChanged 1)).modified 1 = some true) ∧
    (sampleState.modified 1 = some true ∧
      ∃ j', (close_tab sampleState 0 CloseReply.discard env0).1.tabs[j']? =
          sampleState.tabs[1]? ∧
        (close_tab sampleState 0 CloseReply.discard env0).1.modified j' =
          some true) :=
  ⟨(modified_flag_lifecycle sampleState).1 "Untitled" none "",
   ⟨by decide, (modified_flag_lifecycle sampleState).2.2.2.1 1 1 (by decide)⟩,
   ⟨by decide,
    (modified_flag_lifecycle sampleState).2.2.2.2.2.2.2.2 0 CloseReply.discard env0 1
      (by decide) (by decide) (Or.inl (by decide)) (by decide)⟩⟩
